import Mathlib

/-!
Verification development for the `filament_monitor` repository.

Byte strings are modelled as `List Nat` (each element a byte value).
Python `bytes` indexing `m[i]` raises `IndexError` when out of range; this is
modelled with `List.get?` and an explicit `crash` outcome.  Python slices
`m[a:b]` never raise and are modelled by `pySlice`.
Floating point numbers are modelled as exact real numbers.
-/

namespace FilamentMonitor

/-! ### Byte-level helpers -/

/-- Python slice `l[start : start+len]`: never raises, truncates at the end. -/
def pySlice (l : List Nat) (start len : Nat) : List Nat :=
  (l.drop start).take len

/-- `int.to_bytes(len, "big")`: big-endian, fixed width.  (Callers in the
source check the range before calling; overflow is modelled at call sites.) -/
def toBytesBE (n len : Nat) : List Nat :=
  (List.range len).map (fun i => n / 256 ^ (len - 1 - i) % 256)

/-- `int.from_bytes(l, "big")`. -/
def fromBytesBE (l : List Nat) : Nat :=
  l.foldl (fun a b => a * 256 + b) 0

/-! ### tag_storage.py constants -/

def NDEF_TLV : Nat := 0x03
def TERMINATOR_TLV : Nat := 0xFE
def START_PAGE : Nat := 4
def MAX_PAGE : Nat := 134

/-! ### `_encode_text_record` (tag_storage.py lines 16–38)

Returns `none` where the Python code raises (`Language code too long`,
`Payload too large for NDEF record`). -/

def encode_text_record (text lang : List Nat) : Option (List Nat) :=
  if 0x3F < lang.length then none
  else
    let status := lang.length &&& 0x3F
    let payload := status :: (lang ++ text)
    if 0xFFFF < payload.length then none
    else
      let header := if 0xFF < payload.length then 0xC1 else 0xD1
      let lenBytes :=
        if 0xFF < payload.length then toBytesBE payload.length 4
        else [payload.length]
      some (header :: 0x01 :: (lenBytes ++ 0x54 :: payload))

/-! ### `_decode_text_record` (tag_storage.py lines 41–80)

The Python function starts with `print("DEBUG header:", hex(message[0]), ...)`
which indexes `message[0]` *before* the `if not message` emptiness check, so an
empty input raises `IndexError`; likewise `message[1]` and (in the short-record
branch) `message[idx]` can raise on truncated input.  Those raising outcomes
are the `crash` constructor.  The final `text.decode("utf-8")` is modelled at
byte level (text is carried as its UTF-8 bytes). -/

inductive DecodeResult where
  | crash   : DecodeResult
  | noneRes : DecodeResult
  | ok      : List Nat → DecodeResult
deriving DecidableEq, Repr

def decode_text_record (m : List Nat) : DecodeResult :=
  match m.get? 0 with
  | none => .crash             -- debug print evaluates message[0] first
  | some header =>
    let shortRecord : Bool := header &&& 0x10 == 0x10
    let hasId : Bool := header &&& 0x08 == 0x08
    if header &&& 0x07 ≠ 0x01 then .noneRes
    else
      match m.get? 1 with
      | none => .crash         -- type_length = message[1]
      | some type_length =>
        match (if shortRecord then (m.get? 2).map (fun b => (b, 3))
               else some (fromBytesBE (pySlice m 2 4), 6)) with
        | none => .crash       -- payload_length = message[idx] (short form)
        | some (payload_length, i0) =>
          let record_type := pySlice m i0 type_length
          let i1 := i0 + type_length
          if hasId && decide (m.length ≤ i1) then .noneRes
          else
            let i2 := if hasId then i1 + 1 + (m.get? i1).getD 0 else i1
            if record_type ≠ [0x54] then .noneRes
            else
              let payload := pySlice m i2 payload_length
              match payload with
              | [] => .ok []
              | status :: _ => .ok (payload.drop (1 + (status &&& 0x3F)))

/-! ### `_encode_tlv` (tag_storage.py lines 83–94)

`length.to_bytes(2, "big")` raises `OverflowError` when the record is longer
than `0xFFFF` bytes; that outcome is `none`. -/

def encode_tlv (record : List Nat) : Option (List Nat) :=
  if 0xFE < record.length then
    if 0xFFFF < record.length then none
    else some (NDEF_TLV :: 0xFF :: (toBytesBE record.length 2 ++ record ++ [TERMINATOR_TLV]))
  else some (NDEF_TLV :: record.length :: (record ++ [TERMINATOR_TLV]))

/-! ### The TLV container scan inside `read_ndef_json` (tag_storage.py lines 114–159)

The `while` loop walks `raw` starting at `idx = 0`.  For a TLV type byte that
is neither padding `0x00`, the terminator `0xFE`, nor the NDEF type `0x03`,
control falls through to `text = _decode_text_record(message)` with the local
variable `message` never assigned (the `else:` clause holding the
skip-by-length code is attached to the `try` statement, which always returns
or raises, so it is dead code) — Python raises `UnboundLocalError`: `crash`.
On finding an NDEF entry the loop always leaves with the extracted `message`
(modelled as `found`); the subsequent record decode / JSON parse happens
downstream of the scan.  The loop is modelled with explicit fuel, which is
only consumed when skipping a padding byte; `scan_containers` supplies
`raw.length` fuel, enough to reach every exit of the loop. -/

inductive ScanResult where
  | crash    : ScanResult
  | noneFound : ScanResult
  | found    : List Nat → ScanResult
deriving DecidableEq, Repr

def scanLoopF (raw : List Nat) : Nat → Nat → ScanResult
  | _, 0 => .noneFound
  | idx, fuel + 1 =>
    if idx < raw.length then
      let t := raw.getD idx 0
      if t = 0x00 then scanLoopF raw (idx + 1) fuel
      else if t = TERMINATOR_TLV then .noneFound
      else if raw.length ≤ idx + 1 then .noneFound
      else if t = NDEF_TLV then
        let tl := raw.getD (idx + 1) 0
        if tl = 0xFF then
          if raw.length < idx + 4 then .noneFound
          else .found (pySlice raw (idx + 4)
                        ((raw.getD (idx + 2) 0) <<< 8 ||| raw.getD (idx + 3) 0))
        else .found (pySlice raw (idx + 2) tl)
      else .crash
    else .noneFound

def scan_containers (raw : List Nat) : ScanResult :=
  scanLoopF raw 0 raw.length

/-! ### The page-read loop of `read_ndef_json` (tag_storage.py lines 97–108)

`for page in range(start_page, min(MAX_PAGE, start_page + max_pages) + 1)`,
stopping at the first failed page read or the first 4-byte block containing
the terminator byte.  The model returns the accumulated raw bytes together
with the list of page indices actually passed to the reader. -/

def readPagesAux (reader : Nat → Option (List Nat)) : Nat → Nat → List Nat × List Nat
  | _, 0 => ([], [])
  | page, fuel + 1 =>
    match reader page with
    | none => ([], [page])
    | some block =>
      if TERMINATOR_TLV ∈ block then (block, [page])
      else
        let r := readPagesAux reader (page + 1) fuel
        (block ++ r.1, page :: r.2)

def read_pages (reader : Nat → Option (List Nat)) (start maxPages : Nat) :
    List Nat × List Nat :=
  readPagesAux reader start (min MAX_PAGE (start + maxPages) + 1 - start)

/-! ## filament_monitor.py — physical model and consumption tracker

Numeric values (Python floats) are modelled as exact real numbers. -/

noncomputable section

/-! ### Behaviour tuning constants (filament_monitor.py lines 45–51) -/

def FILAMENT_DIAMETER_MM : ℝ := 1.75

def FILAMENT_AREA_MM2 : ℝ := Real.pi * (FILAMENT_DIAMETER_MM / 2) ^ 2

def TAG_ABSENCE_MS : ℤ := 5000

/-- The JSON document stored on a tag.  Only the numeric fields read or
written by `normalise_tag_data` / `consume_filament_rotation` are modelled;
`brand` and `type` are carried opaquely by the source and never touched by
the modelled code paths.  `none` models an absent key. -/
@[ext] structure TagData where
  ver : Option ℝ
  fil_d : Option ℝ
  min_d : Option ℝ
  max_d : Option ℝ
  width : Option ℝ
  grams_full : Option ℝ
  grams_rem : Option ℝ
  meters_full : Option ℝ
  meters_rem : Option ℝ

/-- The state dictionary returned by `normalise_tag_data`. -/
@[ext] structure SpoolState where
  data : TagData
  core_radius_mm : ℝ
  max_radius_mm : ℝ
  width_mm : ℝ
  g_per_m : ℝ

/-! ### Utility functions (filament_monitor.py lines 55–150) -/

def length_from_radius (radius_mm core_radius_mm width_mm : ℝ) : ℝ :=
  let shell := max (radius_mm ^ 2 - core_radius_mm ^ 2) 0
  if shell ≤ 0 ∨ width_mm ≤ 0 then 0
  else Real.pi * width_mm * shell / FILAMENT_AREA_MM2 / 1000

def radius_from_length (length_m core_radius_mm width_mm : ℝ)
    (max_radius_mm : Option ℝ) : ℝ :=
  if width_mm ≤ 0 then core_radius_mm
  else
    let length_mm := max length_m 0 * 1000
    let shell := length_mm * FILAMENT_AREA_MM2 / (Real.pi * width_mm)
    let radius_sq := core_radius_mm ^ 2 + shell
    let radius := Real.sqrt (max radius_sq (core_radius_mm ^ 2))
    match max_radius_mm with
    | some m => min radius m
    | none => radius

def meters_per_rotation (state : SpoolState) : ℝ :=
  let radius := radius_from_length (state.data.meters_rem.getD 0)
      state.core_radius_mm state.width_mm (some state.max_radius_mm)
  if radius ≤ 0 then 0
  else max (2 * Real.pi * radius / 1000) 0

def grams_per_meter_from_data (data : TagData) : ℝ :=
  let meters_full := data.meters_full.getD 0
  let grams_full := data.grams_full.getD 0
  if 0 < meters_full ∧ 0 < grams_full then grams_full / meters_full
  else 1.24 * (FILAMENT_AREA_MM2 / 100) * 1000

def clamp (value minimum maximum : ℝ) : ℝ :=
  max minimum (min value maximum)

/-- Python's `round` (banker's rounding, round-half-to-even) to an integer. -/
def roundHalfEven (x : ℝ) : ℤ :=
  if x - ⌊x⌋ < 1 / 2 then ⌊x⌋
  else if 1 / 2 < x - ⌊x⌋ then ⌊x⌋ + 1
  else if 2 ∣ ⌊x⌋ then ⌊x⌋ else ⌊x⌋ + 1

/-- Python's `round(x, 3)`. -/
def round3 (x : ℝ) : ℝ :=
  (roundHalfEven (x * 1000) : ℝ) / 1000

/-! ### `normalise_tag_data` (filament_monitor.py lines 108–145)

Returns `none` where the Python code raises `ValueError` (a missing required
key).  `data.setdefault` on `ver`/`fil_d` and the in-place mutations of
`meters_full`, `grams_full` and the clamped remaining quantities are modelled
by building the mutated dictionary `d'`; `grams_per_meter_from_data` is
evaluated on the mutated dictionary, as in the source. -/

/-- `meters_full = data.get("meters_full"); if not meters_full or meters_full <= 0:
meters_full = length_from_radius(max_radius, core_radius, width)` —
an absent key and a falsy `0.0` both trigger the recomputation. -/
def derivedMetersFull (d : TagData) (max_radius core_radius width : ℝ) : ℝ :=
  match d.meters_full with
  | some v => if v ≤ 0 then length_from_radius max_radius core_radius width else v
  | none => length_from_radius max_radius core_radius width

/-- `grams_full = data.get("grams_full"); if not grams_full or grams_full <= 0:
grams_full = data.get("grams_rem", 0)` (the required `grams_rem` key is
present whenever this runs). -/
def derivedGramsFull (d : TagData) (grams_rem : ℝ) : ℝ :=
  match d.grams_full with
  | some v => if v ≤ 0 then grams_rem else v
  | none => grams_rem

def normalise_tag_data (d : TagData) : Option SpoolState :=
  match d.min_d, d.max_d, d.width, d.grams_rem, d.meters_rem with
  | some min_d, some max_d, some width, some grams_rem, some meters_rem =>
    let core_radius := min_d / 2
    let max_radius := max_d / 2
    let meters_full := derivedMetersFull d max_radius core_radius width
    let grams_full := derivedGramsFull d grams_rem
    let d' : TagData :=
      { ver := some (d.ver.getD 1)
        fil_d := some (d.fil_d.getD FILAMENT_DIAMETER_MM)
        min_d := some min_d
        max_d := some max_d
        width := some width
        grams_full := some grams_full
        grams_rem := some (clamp grams_rem 0 grams_full)
        meters_full := some meters_full
        meters_rem := some (clamp meters_rem 0 meters_full) }
    some { data := d', core_radius_mm := core_radius, max_radius_mm := max_radius,
           width_mm := width, g_per_m := grams_per_meter_from_data d' }
  | _, _, _, _, _ => none

/-! ### `consume_filament_rotation` (filament_monitor.py lines 274–296)

The returned `Bool` records whether a tag write was attempted
(`tag_storage.write_ndef_json` reached); on write failure the source keeps
the decremented in-memory values, so the returned state is the same either
way.  The `g_per_m` key is always present in states built by
`normalise_tag_data`, matching `state.get("g_per_m", ...)`. -/

def consume_filament_rotation (state : SpoolState) : SpoolState × Bool :=
  let meters_step := meters_per_rotation state
  if meters_step ≤ 0 then (state, false)
  else
    let grams_step := meters_step * state.g_per_m
    let meters_rem1 := max (state.data.meters_rem.getD 0 - meters_step) 0
    let grams_rem1 := max (state.data.grams_rem.getD 0 - grams_step) 0
    let meters_rem2 := round3 (max meters_rem1 0)
    let grams_rem2 := round3 (max grams_rem1 0)
    ({ state with
        data := { state.data with
                    meters_rem := some meters_rem2,
                    grams_rem := some grams_rem2 } }, true)

def consumeN : Nat → SpoolState → SpoolState
  | 0, s => s
  | n + 1, s => consumeN n (consume_filament_rotation s).1

/-! ### The main polling loop's tracking state (filament_monitor.py lines 207–271)

One iteration of the `while True` loop acting on the tracking variables
`current_uid`, `current_state`, `last_detection_ms`, `seen_once`.  The scan
result and the outcome of `tag_storage.read_ndef_json` (with any exception
mapped to `None`, as the `try/except` does) are inputs of the step.  The
returned `Bool` is true iff `consume_filament_rotation` was invoked this
iteration.  A `current_state` dictionary produced by `normalise_tag_data` is
always non-empty, so its Python truthiness is `Option.isSome`. -/

structure Tracker where
  current_uid : Option (List Nat)
  current_state : Option SpoolState
  last_detection_ms : ℤ
  seen_once : Bool

def tracker0 : Tracker :=
  { current_uid := none, current_state := none,
    last_detection_ms := 0, seen_once := false }

def monitor_step (now : ℤ) (uid_bytes : Option (List Nat))
    (read_result : Option TagData) (t : Tracker) : Tracker × Bool :=
  match uid_bytes with
  | some u =>
    if t.current_uid ≠ some u then
      match read_result with
      | none =>
        ({ current_uid := none, current_state := none,
           last_detection_ms := t.last_detection_ms, seen_once := false }, false)
      | some data =>
        match normalise_tag_data data with
        | some s =>
          ({ current_uid := some u, current_state := some s,
             last_detection_ms := now, seen_once := false }, false)
        | none =>
          ({ current_uid := none, current_state := none,
             last_detection_ms := t.last_detection_ms, seen_once := false }, false)
    else
      ({ t with last_detection_ms := now, seen_once := true }, false)
  | none =>
    match t.current_uid with
    | some _ =>
      if t.current_state.isSome = true ∧ t.seen_once = true ∧
          TAG_ABSENCE_MS ≤ now - t.last_detection_ms then
        ({ t with current_state :=
            t.current_state.map (fun s => (consume_filament_rotation s).1) }, true)
      else if TAG_ABSENCE_MS * 4 ≤ now - t.last_detection_ms then
        ({ current_uid := none, current_state := none,
           last_detection_ms := t.last_detection_ms, seen_once := false }, false)
      else (t, false)
    | none => (t, false)

/-! ### Field accessors used in the claim statements -/

def gramsRemaining (s : SpoolState) : ℝ := s.data.grams_rem.getD 0
def metersRemaining (s : SpoolState) : ℝ := s.data.meters_rem.getD 0
def gramsFullOf (s : SpoolState) : ℝ := s.data.grams_full.getD 0
def metersFullOf (s : SpoolState) : ℝ := s.data.meters_full.getD 0

/-! ### Concrete data used by witnesses and counterexamples -/

/-- A well-formed tag document. -/
def dOk : TagData :=
  { ver := none, fil_d := none, min_d := some 50, max_d := some 100,
    width := some 10, grams_full := some 100, grams_rem := some 100,
    meters_full := some 10, meters_rem := some 10 }

/-- The state `normalise_tag_data` produces from `dOk`. -/
def sOk : SpoolState :=
  { data := { ver := some 1, fil_d := some FILAMENT_DIAMETER_MM,
              min_d := some 50, max_d := some 100, width := some 10,
              grams_full := some 100, grams_rem := some 100,
              meters_full := some 10, meters_rem := some 10 },
    core_radius_mm := 25, max_radius_mm := 50, width_mm := 10, g_per_m := 10 }

/-- A document with a negative `grams_rem` and no `grams_full`:
`normalise_tag_data` accepts it and derives a negative `grams_full`. -/
def dNeg : TagData :=
  { ver := none, fil_d := none, min_d := some 0, max_d := some 0,
    width := some 1, grams_full := none, grams_rem := some (-1),
    meters_full := none, meters_rem := some 0 }

/-- The state `normalise_tag_data` produces from `dNeg`. -/
def sNeg : SpoolState :=
  { data := { ver := some 1, fil_d := some FILAMENT_DIAMETER_MM,
              min_d := some 0, max_d := some 0, width := some 1,
              grams_full := some (-1), grams_rem := some 0,
              meters_full := some 0, meters_rem := some 0 },
    core_radius_mm := 0, max_radius_mm := 0, width_mm := 1,
    g_per_m := 1.24 * (FILAMENT_AREA_MM2 / 100) * 1000 }

/-- The state a second `normalise_tag_data` run produces from `sNeg.data`:
`grams_full` has changed from `-1` to `0`. -/
def sNeg2 : SpoolState :=
  { data := { ver := some 1, fil_d := some FILAMENT_DIAMETER_MM,
              min_d := some 0, max_d := some 0, width := some 1,
              grams_full := some 0, grams_rem := some 0,
              meters_full := some 0, meters_rem := some 0 },
    core_radius_mm := 0, max_radius_mm := 0, width_mm := 1,
    g_per_m := 1.24 * (FILAMENT_AREA_MM2 / 100) * 1000 }

/-- Invariant carried through consumption steps (for C4): the remaining
quantities are nonnegative and within the full quantities, up to the
half-thousandth slack that 3-decimal rounding can add; once a value has been
rounded it is an integer multiple of `1/1000`. -/
def remInv (gf mf : ℝ) (s : SpoolState) : Prop :=
  0 ≤ gramsRemaining s ∧
  (gramsRemaining s ≤ gf ∨
    (gramsRemaining s ≤ gf + 1 / 2000 ∧ ∃ k : ℤ, gramsRemaining s = (k : ℝ) / 1000)) ∧
  0 ≤ metersRemaining s ∧
  (metersRemaining s ≤ mf ∨
    (metersRemaining s ≤ mf + 1 / 2000 ∧ ∃ k : ℤ, metersRemaining s = (k : ℝ) / 1000)) ∧
  gramsFullOf s = gf ∧ metersFullOf s = mf ∧ 0 ≤ s.g_per_m

/-- A state with given geometry and remaining length (only the fields read by
`meters_per_rotation` matter). -/
def mkGeomState (core maxr width m : ℝ) : SpoolState :=
  { data := { ver := none, fil_d := none, min_d := none, max_d := none,
              width := none, grams_full := none, grams_rem := none,
              meters_full := none, meters_rem := some m },
    core_radius_mm := core, max_radius_mm := maxr, width_mm := width,
    g_per_m := 0 }

end

/-- A page reader that always succeeds with a terminator-free block. -/
def readerAll : Nat → Option (List Nat) := fun _ => some [0, 0, 0, 0]

/-- A page reader that fails at page 6. -/
def readerFail6 : Nat → Option (List Nat) :=
  fun p => if p = 6 then none else some [1, 2, 3, 4]

end FilamentMonitor

/-! ## Theorems -/

namespace FilamentMonitor

/-- C6: the spec claims `_decode_text_record` returns `None` (never raises) on
every input, including the empty byte string; but the debug `print` at the top
of the function evaluates `message[0]` *before* the `if not message` check, so
the empty input raises `IndexError`.  The emptiness check on the very next
line shows the intended behaviour; the claim is right and the code is wrong. -/
theorem c6_decode_crashes_on_empty_input :
    decode_text_record [] = .crash := rfl

/-- C7: the spec claims the container scan skips entries of non-wanted TLV
types by their declared length and never fails on such a buffer; but the
skip-by-length code sits in an `else:` clause attached to the `try` statement
(dead code), so on a buffer whose first non-padding byte is another TLV type
(here `0x01`, a lock-control TLV of declared length 1) control reaches
`_decode_text_record(message)` with `message` unbound and Python raises
`UnboundLocalError`.  The dead `else` block shows the intended behaviour; the
claim is right and the code is wrong. -/
theorem c7_scan_crashes_on_other_tlv_type :
    scan_containers [0x01, 0x01] = .crash := rfl

/-- C8 counterexample: with `start_page = 4`, `max_pages = 80` and a reader
that always succeeds with terminator-free blocks, the loop reads pages
4..84 inclusive — 81 pages, one more than `max_pages`. -/
theorem c8_counterexample_reads_81_pages :
    80 < (read_pages readerAll 4 80).2.length := by decide

/-- C10: if `meters_per_rotation(state) ≤ 0`, `consume_filament_rotation`
returns at once: the state (hence every document field) is unchanged and no
tag write is attempted. -/
theorem c10_consume_noop_when_step_nonpositive (s : SpoolState)
    (h : meters_per_rotation s ≤ 0) :
    consume_filament_rotation s = (s, false) := by
  simp only [consume_filament_rotation]
  rw [if_pos h]

/-- Witness for C10 at a concrete state (zero width, zero core radius). -/
theorem c10_witness :
    consume_filament_rotation (mkGeomState 0 0 0 0) = (mkGeomState 0 0 0 0, false) := by
  apply c10_consume_noop_when_step_nonpositive
  simp [meters_per_rotation, radius_from_length, mkGeomState]

/-! ### Lemmas about the page-read loop (for C8) -/

theorem readPagesAux_len (r : Nat → Option (List Nat)) :
    ∀ fuel page, (readPagesAux r page fuel).2.length ≤ fuel := by
  intro fuel
  induction fuel with
  | zero => intro page; simp [readPagesAux]
  | succ n ih =>
    intro page
    simp only [readPagesAux]
    cases r page with
    | none => simp
    | some block =>
      by_cases hb : TERMINATOR_TLV ∈ block
      · simp [hb]
      · simpa [hb] using ih (page + 1)

theorem readPagesAux_pages (r : Nat → Option (List Nat)) :
    ∀ fuel page,
      (readPagesAux r page fuel).2 =
        List.range' page (readPagesAux r page fuel).2.length := by
  intro fuel
  induction fuel with
  | zero => intro page; simp [readPagesAux]
  | succ n ih =>
    intro page
    simp only [readPagesAux]
    cases r page with
    | none => simp
    | some block =>
      by_cases hb : TERMINATOR_TLV ∈ block
      · simp [hb]
      · simp only [hb, if_false, List.length_cons, List.range'_succ]
        rw [← ih (page + 1)]

theorem readPagesAux_stop (r : Nat → Option (List Nat)) :
    ∀ fuel page i, i + 1 < (readPagesAux r page fuel).2.length →
      ∃ block, r (page + i) = some block ∧ TERMINATOR_TLV ∉ block := by
  intro fuel
  induction fuel with
  | zero => intro page i h; simp [readPagesAux] at h
  | succ n ih =>
    intro page i h
    simp only [readPagesAux] at h
    cases hr : r page with
    | none => rw [hr] at h; simp at h
    | some block =>
      rw [hr] at h
      by_cases hb : TERMINATOR_TLV ∈ block
      · simp [hb] at h
      · simp only [hb, if_false, List.length_cons] at h
        match i with
        | 0 => exact ⟨block, by simpa using hr, hb⟩
        | j + 1 =>
          have hj : j + 1 < (readPagesAux r (page + 1) n).2.length := by omega
          obtain ⟨b, hb1, hb2⟩ := ih (page + 1) j hj
          refine ⟨b, ?_, hb2⟩
          rw [← hb1]
          congr 1
          omega

/-- C8 (amended): the page-read loop reads consecutive pages starting at
`start_page`, reads at most `max_pages + 1` pages (the `range` upper bound
`min(MAX_PAGE, start_page + max_pages) + 1` makes both ends inclusive),
never touches a page index beyond `MAX_PAGE`, and every page before the last
one read was a successful, terminator-free read (the loop stops at the first
chunk containing the terminator or the first failed read). -/
theorem c8_read_loop_reads_at_most_max_pages_plus_one
    (reader : Nat → Option (List Nat)) (start maxPages : Nat) :
    (read_pages reader start maxPages).2.length ≤ maxPages + 1 ∧
    (read_pages reader start maxPages).2 =
      List.range' start (read_pages reader start maxPages).2.length ∧
    (∀ p ∈ (read_pages reader start maxPages).2, start ≤ p ∧ p ≤ MAX_PAGE) ∧
    (∀ i, i + 1 < (read_pages reader start maxPages).2.length →
      ∃ block, reader (start + i) = some block ∧ TERMINATOR_TLV ∉ block) := by
  have hlen := readPagesAux_len reader (min MAX_PAGE (start + maxPages) + 1 - start) start
  have hpages := readPagesAux_pages reader (min MAX_PAGE (start + maxPages) + 1 - start) start
  have hstop := readPagesAux_stop reader (min MAX_PAGE (start + maxPages) + 1 - start) start
  have hmin1 : min MAX_PAGE (start + maxPages) ≤ MAX_PAGE := min_le_left _ _
  have hmin2 : min MAX_PAGE (start + maxPages) ≤ start + maxPages := min_le_right _ _
  unfold read_pages
  refine ⟨?_, hpages, ?_, hstop⟩
  · have : (read_pages reader start maxPages).2.length ≤
        min MAX_PAGE (start + maxPages) + 1 - start := hlen
    omega
  · intro p hp
    rw [hpages, List.mem_range'] at hp
    obtain ⟨i, hi, rfl⟩ := hp
    have : (read_pages reader start maxPages).2.length ≤
        min MAX_PAGE (start + maxPages) + 1 - start := hlen
    omega

/-- Witness for C8 at a concrete reader that fails at page 6. -/
theorem c8_witness :
    (read_pages readerFail6 4 10).2 = [4, 5, 6] ∧
    (read_pages readerFail6 4 10).2.length ≤ 10 + 1 :=
  ⟨by decide, (c8_read_loop_reads_at_most_max_pages_plus_one readerFail6 4 10).1⟩

/-! ### Evaluating `normalise_tag_data` on the concrete documents -/

theorem normalise_dOk : normalise_tag_data dOk = some sOk := by
  simp only [normalise_tag_data, dOk, derivedMetersFull, derivedGramsFull]
  norm_num [clamp, grams_per_meter_from_data, sOk]

/-! ### C1 and C2: the consumption debounce of the main loop

Trace: a tag `[1]` holding `dOk` is detected at `t = 0` (entering tracking),
re-detected at `t = 100` (arming `seen_once`), then never seen again. -/

/-- C1: the spec claims exactly one consumption step fires per confirmed
absence, because `confirmed` (`seen_once`) is cleared after the step; but the
main loop never clears `seen_once` after calling
`consume_filament_rotation`, so the poll at `t = 5100` (gap `5000 =
ABSENCE_THRESHOLD`) fires a step and the very next poll at `t = 5150` — a
further poll with no tag and no intervening re-sighting — fires another one.
The module docstring ("Every full rotation subtracts filament…") and the
comment "Check if it's been gone long enough to count a rotation" show one
step per absence is the intent; the claim is right and the code is wrong. -/
theorem c1_second_immediate_absence_fires_again :
    (monitor_step 5100 none none
      (monitor_step 100 (some [1]) none
        (monitor_step 0 (some [1]) (some dOk) tracker0).1).1).2 = true ∧
    (monitor_step 5150 none none
      (monitor_step 5100 none none
        (monitor_step 100 (some [1]) none
          (monitor_step 0 (some [1]) (some dOk) tracker0).1).1).1).2 = true := by
  have h1 : monitor_step 0 (some [1]) (some dOk) tracker0 =
      ({ current_uid := some [1], current_state := some sOk,
         last_detection_ms := 0, seen_once := false }, false) := by
    simp [monitor_step, tracker0, normalise_dOk]
  have h2 : monitor_step 100 (some [1]) none
      ({ current_uid := some [1], current_state := some sOk,
         last_detection_ms := 0, seen_once := false } : Tracker) =
      ({ current_uid := some [1], current_state := some sOk,
         last_detection_ms := 100, seen_once := true }, false) := by
    simp [monitor_step]
  have h3 : monitor_step 5100 none none
      ({ current_uid := some [1], current_state := some sOk,
         last_detection_ms := 100, seen_once := true } : Tracker) =
      ({ current_uid := some [1],
         current_state := some (consume_filament_rotation sOk).1,
         last_detection_ms := 100, seen_once := true }, true) := by
    simp [monitor_step, TAG_ABSENCE_MS]
  have h4 : monitor_step 5150 none none
      ({ current_uid := some [1],
         current_state := some (consume_filament_rotation sOk).1,
         last_detection_ms := 100, seen_once := true } : Tracker) =
      ({ current_uid := some [1],
         current_state := some
           (consume_filament_rotation (consume_filament_rotation sOk).1).1,
         last_detection_ms := 100, seen_once := true }, true) := by
    simp [monitor_step, TAG_ABSENCE_MS]
  rw [h1, h2, h3, h4]
  exact ⟨rfl, rfl⟩

/-- C2: the spec claims that for any confirmed-flag value, a gap of
`4 × ABSENCE_THRESHOLD` hard-resets the tracker to Idle; but when
`seen_once` is set the consumption branch (`gap ≥ ABSENCE_THRESHOLD`) always
wins the `if/elif`, so at `t = 25000` (gap `24900 ≥ 20000`) the tracker still
holds the UID and state and fires yet another consumption step instead of
resetting.  The source's own comment "Fully reset state after prolonged
absence" on the unreachable branch shows the reset is the intent; the claim
is right and the code is wrong. -/
theorem c2_no_hard_reset_when_confirmed :
    (monitor_step 25000 none none
      (monitor_step 100 (some [1]) none
        (monitor_step 0 (some [1]) (some dOk) tracker0).1).1).1.current_uid = some [1] ∧
    (monitor_step 25000 none none
      (monitor_step 100 (some [1]) none
        (monitor_step 0 (some [1]) (some dOk) tracker0).1).1).1.current_state.isSome = true ∧
    (monitor_step 25000 none none
      (monitor_step 100 (some [1]) none
        (monitor_step 0 (some [1]) (some dOk) tracker0).1).1).2 = true := by
  have h1 : monitor_step 0 (some [1]) (some dOk) tracker0 =
      ({ current_uid := some [1], current_state := some sOk,
         last_detection_ms := 0, seen_once := false }, false) := by
    simp [monitor_step, tracker0, normalise_dOk]
  have h2 : monitor_step 100 (some [1]) none
      ({ current_uid := some [1], current_state := some sOk,
         last_detection_ms := 0, seen_once := false } : Tracker) =
      ({ current_uid := some [1], current_state := some sOk,
         last_detection_ms := 100, seen_once := true }, false) := by
    simp [monitor_step]
  have h5 : monitor_step 25000 none none
      ({ current_uid := some [1], current_state := some sOk,
         last_detection_ms := 100, seen_once := true } : Tracker) =
      ({ current_uid := some [1],
         current_state := some (consume_filament_rotation sOk).1,
         last_detection_ms := 100, seen_once := true }, true) := by
    simp [monitor_step, TAG_ABSENCE_MS]
  rw [h1, h2, h5]
  exact ⟨rfl, rfl, rfl⟩

/-! ### C9: monotonicity of `meters_per_rotation` -/

theorem FILAMENT_AREA_MM2_pos : 0 < FILAMENT_AREA_MM2 := by
  unfold FILAMENT_AREA_MM2 FILAMENT_DIAMETER_MM
  positivity

theorem radius_from_length_pos_width (m core width maxr : ℝ)
    (hw : 0 < width) (hm : 0 ≤ m) :
    radius_from_length m core width (some maxr) =
      min (Real.sqrt (core ^ 2 + m * 1000 * FILAMENT_AREA_MM2 / (Real.pi * width)))
        maxr := by
  have hA := FILAMENT_AREA_MM2_pos
  have hpi := Real.pi_pos
  have hshell : 0 ≤ m * 1000 * FILAMENT_AREA_MM2 / (Real.pi * width) := by positivity
  have hmax1 : max m 0 = m := max_eq_left hm
  simp only [radius_from_length, not_le.mpr hw, if_false, hmax1]
  rw [max_eq_left (le_add_of_nonneg_right hshell)]

theorem meters_per_rotation_mkGeom (core maxr width m : ℝ) :
    meters_per_rotation (mkGeomState core maxr width m) =
      if radius_from_length m core width (some maxr) ≤ 0 then 0
      else max (2 * Real.pi * radius_from_length m core width (some maxr) / 1000) 0 := by
  simp [meters_per_rotation, mkGeomState]

/-- C9 (amended): with positive geometry, `meters_per_rotation` is strictly
monotone in `meters_remaining` as long as the radius implied by the larger
value does not exceed `max_radius` (i.e. the spool is within its geometric
capacity); beyond that point, the `min(radius, max_radius)` clamp in
`radius_from_length` makes the function constant. -/
theorem c9_meters_per_rotation_strict_mono
    (core maxr width m1 m2 : ℝ)
    (hcore : 0 < core) (_hmaxr : 0 < maxr) (hw : 0 < width)
    (h2 : 0 ≤ m2) (h12 : m2 < m1)
    (hcap : Real.sqrt (core ^ 2 + m1 * 1000 * FILAMENT_AREA_MM2 / (Real.pi * width))
      ≤ maxr) :
    meters_per_rotation (mkGeomState core maxr width m2) <
      meters_per_rotation (mkGeomState core maxr width m1) := by
  have hA := FILAMENT_AREA_MM2_pos
  have hpi := Real.pi_pos
  have hm1 : 0 ≤ m1 := le_of_lt (lt_of_le_of_lt h2 h12)
  set s1 := core ^ 2 + m1 * 1000 * FILAMENT_AREA_MM2 / (Real.pi * width) with hs1
  set s2 := core ^ 2 + m2 * 1000 * FILAMENT_AREA_MM2 / (Real.pi * width) with hs2
  have hs2nn : 0 ≤ s2 := by rw [hs2]; positivity
  have hlt : s2 < s1 := by
    rw [hs1, hs2]
    have : m2 * 1000 * FILAMENT_AREA_MM2 / (Real.pi * width) <
        m1 * 1000 * FILAMENT_AREA_MM2 / (Real.pi * width) := by gcongr
    linarith
  have hsqrt_lt : Real.sqrt s2 < Real.sqrt s1 := Real.sqrt_lt_sqrt hs2nn hlt
  have hsqrt2_le : Real.sqrt s2 ≤ maxr := le_trans hsqrt_lt.le hcap
  have hcore_le : core ≤ Real.sqrt s2 := by
    have h1 : core ^ 2 ≤ s2 := by
      rw [hs2]
      have : 0 ≤ m2 * 1000 * FILAMENT_AREA_MM2 / (Real.pi * width) := by positivity
      linarith
    calc core = Real.sqrt (core ^ 2) := (Real.sqrt_sq hcore.le).symm
      _ ≤ Real.sqrt s2 := Real.sqrt_le_sqrt h1
  have h2pos : 0 < Real.sqrt s2 := lt_of_lt_of_le hcore hcore_le
  have h1pos : 0 < Real.sqrt s1 := lt_trans h2pos hsqrt_lt
  rw [meters_per_rotation_mkGeom, meters_per_rotation_mkGeom,
      radius_from_length_pos_width m1 core width maxr hw hm1,
      radius_from_length_pos_width m2 core width maxr hw h2,
      min_eq_left hsqrt2_le, min_eq_left hcap,
      if_neg (not_le.mpr h2pos), if_neg (not_le.mpr h1pos),
      max_eq_left (by positivity), max_eq_left (by positivity)]
  gcongr

/-- C9 counterexample: the claim quantifies over *all* `m1 > m2 ≥ 0`, but
with geometry `core = 3`, `max_radius = 4`, `width = 6125/8` (which makes the
shell term exactly `m`), both `m = 16` (implied radius `5`) and `m = 7`
(implied radius `4`) clamp to `max_radius = 4`, so `meters_per_rotation` is
equal at the two values instead of strictly greater. -/
theorem c9_counterexample :
    (0:ℝ) < 3 ∧ (0:ℝ) < 4 ∧ (0:ℝ) < 6125 / 8 ∧ (0:ℝ) ≤ 7 ∧ (7:ℝ) < 16 ∧
    meters_per_rotation (mkGeomState 3 4 (6125 / 8) 16) =
      meters_per_rotation (mkGeomState 3 4 (6125 / 8) 7) := by
  have hinner : ∀ m : ℝ,
      (3:ℝ) ^ 2 + m * 1000 * FILAMENT_AREA_MM2 / (Real.pi * (6125 / 8)) = 9 + m := by
    intro m
    have hpi : Real.pi ≠ 0 := Real.pi_ne_zero
    unfold FILAMENT_AREA_MM2 FILAMENT_DIAMETER_MM
    field_simp
    ring
  have h16 : radius_from_length 16 3 (6125 / 8) (some 4) = 4 := by
    rw [radius_from_length_pos_width 16 3 (6125 / 8) 4 (by norm_num) (by norm_num),
        hinner 16]
    rw [show (9:ℝ) + 16 = 5 ^ 2 by norm_num, Real.sqrt_sq (by norm_num : (0:ℝ) ≤ 5)]
    exact min_eq_right (by norm_num)
  have h7 : radius_from_length 7 3 (6125 / 8) (some 4) = 4 := by
    rw [radius_from_length_pos_width 7 3 (6125 / 8) 4 (by norm_num) (by norm_num),
        hinner 7]
    rw [show (9:ℝ) + 7 = 4 ^ 2 by norm_num, Real.sqrt_sq (by norm_num : (0:ℝ) ≤ 4)]
    exact min_eq_right (by norm_num)
  refine ⟨by norm_num, by norm_num, by norm_num, by norm_num, by norm_num, ?_⟩
  rw [meters_per_rotation_mkGeom, meters_per_rotation_mkGeom, h16, h7]

/-- Witness for the amended C9 with geometry `core = 3`, `max_radius = 5`,
`width = 6125/8` and `m2 = 7 < m1 = 16` (implied radii `4 < 5 = max_radius`). -/
theorem c9_witness :
    meters_per_rotation (mkGeomState 3 5 (6125 / 8) 7) <
      meters_per_rotation (mkGeomState 3 5 (6125 / 8) 16) := by
  apply c9_meters_per_rotation_strict_mono 3 5 (6125 / 8) 16 7
    (by norm_num) (by norm_num) (by norm_num) (by norm_num) (by norm_num)
  have hinner : (3:ℝ) ^ 2 + 16 * 1000 * FILAMENT_AREA_MM2 / (Real.pi * (6125 / 8)) =
      9 + 16 := by
    have hpi : Real.pi ≠ 0 := Real.pi_ne_zero
    unfold FILAMENT_AREA_MM2 FILAMENT_DIAMETER_MM
    field_simp
    ring
  rw [hinner, show (9:ℝ) + 16 = 5 ^ 2 by norm_num,
      Real.sqrt_sq (by norm_num : (0:ℝ) ≤ 5)]

/-! ### C3: byte-level round trip of the record codec

Arithmetic lemmas about the big-endian length fields first. -/

theorem land63 {n : Nat} (h : n ≤ 63) : n &&& 63 = n := by
  have h2 : n < 2 ^ 6 := by omega
  calc n &&& 63 = n &&& 2 ^ 6 - 1 := by norm_num
    _ = n := Nat.and_pow_two_sub_one_of_lt_two_pow h2

theorem toBytesBE_two (n : Nat) :
    toBytesBE n 2 = [n / 256 % 256, n % 256] := by
  simp [toBytesBE, List.range_succ]

theorem toBytesBE_four (n : Nat) :
    toBytesBE n 4 =
      [n / 16777216 % 256, n / 65536 % 256, n / 256 % 256, n % 256] := by
  simp [toBytesBE, List.range_succ]

theorem from_to_four (n : Nat) (h : n < 4294967296) :
    fromBytesBE (toBytesBE n 4) = n := by
  rw [toBytesBE_four]
  simp only [fromBytesBE, List.foldl]
  omega

theorem shiftLeft8_lor (a b : Nat) (hb : b < 256) :
    a <<< 8 ||| b = 256 * a + b := by
  apply Nat.eq_of_testBit_eq
  intro j
  rw [Nat.testBit_or, Nat.testBit_shiftLeft]
  rcases Nat.lt_or_ge j 8 with hj | hj
  · have h1 : decide (8 ≤ j) = false := by
      simp only [decide_eq_false_iff_not]
      omega
    rw [h1, Bool.false_and, Bool.false_or]
    have h2 : 256 * a + b = b + 2 ^ 8 * a := by ring
    rw [h2, Nat.testBit_to_div_mod, Nat.testBit_to_div_mod]
    have h3 : (b + 2 ^ 8 * a) / 2 ^ j = b / 2 ^ j + 2 ^ (8 - j) * a := by
      have hsplit : 2 ^ 8 * a = 2 ^ j * (2 ^ (8 - j) * a) := by
        rw [← mul_assoc, ← pow_add]
        congr 2
        omega
      rw [hsplit, Nat.add_mul_div_left _ _ (Nat.pos_pow_of_pos j (by norm_num))]
    rw [h3]
    have h4 : 2 ^ (8 - j) * a = 2 * (2 ^ (8 - j - 1) * a) := by
      rw [← mul_assoc]
      congr 1
      rw [← pow_succ']
      congr 1
      omega
    rw [h4, Nat.add_mul_mod_self_left]
  · have h1 : decide (8 ≤ j) = true := by simpa using hj
    rw [h1, Bool.true_and]
    have hbj : Nat.testBit b j = false :=
      Nat.testBit_lt_two_pow
        (lt_of_lt_of_le hb (Nat.pow_le_pow_right (by norm_num : 0 < 2) hj))
    rw [hbj, Bool.or_false, Nat.testBit_to_div_mod, Nat.testBit_to_div_mod]
    have h2 : (256 * a + b) / 2 ^ j = a / 2 ^ (j - 8) := by
      have hj8 : 2 ^ j = 2 ^ 8 * 2 ^ (j - 8) := by
        rw [← pow_add]
        congr 1
        omega
      rw [hj8, ← Nat.div_div_eq_div_mul]
      congr 1
      rw [show (256:Nat) * a + b = b + 2 ^ 8 * a by ring,
          Nat.add_mul_div_left _ _ (by norm_num : 0 < 2 ^ 8),
          Nat.div_eq_of_lt (show b < 2 ^ 8 by omega), Nat.zero_add]
    rw [h2]

theorem toBytesBE_length (n len : Nat) : (toBytesBE n len).length = len := by
  simp [toBytesBE]

theorem drop_one_add {A : Type} (n : Nat) (a : A) (l : List A) :
    List.drop (1 + n) (a :: l) = List.drop n l := by
  rw [Nat.add_comm]
  rfl

/-- Decoding the short-form record produced by `_encode_text_record`. -/
theorem decode_short_shape (lang text : List Nat) (hL : lang.length ≤ 63) :
    decode_text_record
      (0xD1 :: 0x01 :: (lang.length + text.length + 1) :: 0x54 :: lang.length ::
        (lang ++ text)) = .ok text := by
  have ha : (209:Nat) &&& 7 = 1 := by decide
  have hb : (209:Nat) &&& 16 = 16 := by decide
  have htake : List.take (lang.length + text.length) (lang ++ text) = lang ++ text :=
    List.take_of_length_le (by simp)
  simp [decode_text_record, pySlice, land63 hL, drop_one_add, List.drop_left,
    ha, hb, htake]

/-- Decoding the extended-form record produced by `_encode_text_record`. -/
theorem decode_ext_shape (lang text : List Nat) (hL : lang.length ≤ 63)
    (hP : lang.length + text.length + 1 < 4294967296) :
    decode_text_record
      (0xC1 :: 0x01 ::
        (toBytesBE (lang.length + text.length + 1) 4 ++
          0x54 :: lang.length :: (lang ++ text))) = .ok text := by
  have ha : (193:Nat) &&& 7 = 1 := by decide
  have hb : ((193:Nat) &&& 16 == 16) = false := by decide
  have hc : ((193:Nat) &&& 8 == 8) = false := by decide
  have h4 : fromBytesBE [(lang.length + text.length + 1) / 16777216 % 256,
      (lang.length + text.length + 1) / 65536 % 256,
      (lang.length + text.length + 1) / 256 % 256,
      (lang.length + text.length + 1) % 256] = lang.length + text.length + 1 := by
    have h := from_to_four (lang.length + text.length + 1) hP
    rwa [toBytesBE_four] at h
  have htake : List.take (lang.length + text.length) (lang ++ text) = lang ++ text :=
    List.take_of_length_le (by simp)
  rw [toBytesBE_four]
  simp [decode_text_record, pySlice, land63 hL, drop_one_add, List.drop_left,
    ha, hb, hc, htake, h4]

/-- The container scan finds the record wrapped in a 1-byte-length TLV. -/
theorem scan_tlv_short (rec : List Nat) (h : rec.length ≤ 0xFE) :
    scan_containers (0x03 :: rec.length :: (rec ++ [0xFE])) = .found rec := by
  have hne : rec.length ≠ 0xFF := by omega
  simp [scan_containers, scanLoopF, pySlice, hne, TERMINATOR_TLV, NDEF_TLV]

/-- The container scan finds the record wrapped in an extended-length TLV. -/
theorem scan_tlv_ext (rec : List Nat) (hgt : 0xFE < rec.length)
    (hle : rec.length ≤ 0xFFFF) :
    scan_containers (0x03 :: 0xFF :: (toBytesBE rec.length 2 ++ rec ++ [0xFE])) =
      .found rec := by
  rw [toBytesBE_two]
  have hmod : rec.length / 256 % 256 = rec.length / 256 :=
    Nat.mod_eq_of_lt (by omega)
  have hlor : (rec.length / 256) <<< 8 ||| rec.length % 256 = rec.length := by
    rw [shiftLeft8_lor (rec.length / 256) (rec.length % 256)
        (Nat.mod_lt _ (by norm_num))]
    omega
  simp [scan_containers, scanLoopF, pySlice, hmod, hlor, TERMINATOR_TLV, NDEF_TLV,
    List.take_left, (by omega : ¬ (rec.length + 1 + 1 + 1 + 1 + 1 < 4))]

/-- `_encode_text_record` on a payload that fits the short form. -/
theorem encode_short_eq (text lang : List Nat) (hL : lang.length ≤ 63)
    (hsh : lang.length + text.length + 1 ≤ 0xFF) :
    encode_text_record text lang =
      some (0xD1 :: 0x01 :: (lang.length + text.length + 1) :: 0x54 ::
        lang.length :: (lang ++ text)) := by
  have hplen : ((lang.length : Nat) :: (lang ++ text)).length =
      lang.length + text.length + 1 := by simp
  simp only [encode_text_record, land63 hL]
  rw [if_neg (show ¬ (0x3F < lang.length) by omega), hplen,
      if_neg (show ¬ (0xFFFF < lang.length + text.length + 1) by omega),
      if_neg (show ¬ (0xFF < lang.length + text.length + 1) by omega),
      if_neg (show ¬ (0xFF < lang.length + text.length + 1) by omega)]
  simp

/-- `_encode_text_record` on a payload that needs the extended form. -/
theorem encode_ext_eq (text lang : List Nat) (hL : lang.length ≤ 63)
    (hbig : 0xFF < lang.length + text.length + 1)
    (hle : lang.length + text.length + 1 ≤ 0xFFFF) :
    encode_text_record text lang =
      some (0xC1 :: 0x01 :: (toBytesBE (lang.length + text.length + 1) 4 ++
        0x54 :: lang.length :: (lang ++ text))) := by
  have hplen : ((lang.length : Nat) :: (lang ++ text)).length =
      lang.length + text.length + 1 := by simp
  simp only [encode_text_record, land63 hL]
  rw [if_neg (show ¬ (0x3F < lang.length) by omega), hplen,
      if_neg (show ¬ (0xFFFF < lang.length + text.length + 1) by omega),
      if_pos hbig, if_pos hbig]

/-- C3 (amended): for every text payload with language code at most 63 bytes
and `status + language + text` at most 65528 bytes, encoding, wrapping in a
container, re-extracting the payload by the container scan, and decoding
returns exactly the original text.  (The claim's bound of 65535 is lowered to
65528: beyond that the container step itself raises, see the
counterexample.) -/
theorem c3_round_trip (text lang : List Nat) (hL : lang.length ≤ 63)
    (hsize : 1 + lang.length + text.length ≤ 65528) :
    ∃ rec tlv,
      encode_text_record text lang = some rec ∧
      encode_tlv rec = some tlv ∧
      scan_containers tlv = .found rec ∧
      decode_text_record rec = .ok text := by
  by_cases hsh : lang.length + text.length + 1 ≤ 0xFF
  · -- short record form
    set rec := 0xD1 :: 0x01 :: (lang.length + text.length + 1) :: 0x54 ::
      lang.length :: (lang ++ text) with hrec
    have henc : encode_text_record text lang = some rec :=
      encode_short_eq text lang hL hsh
    have hrlen : rec.length = lang.length + text.length + 5 := by
      rw [hrec]
      simp
      try omega
    by_cases htl : rec.length ≤ 0xFE
    · refine ⟨rec, 0x03 :: rec.length :: (rec ++ [0xFE]), henc, ?_, ?_, ?_⟩
      · unfold encode_tlv
        rw [if_neg (show ¬ (0xFE < rec.length) by omega)]
        rfl
      · exact scan_tlv_short rec htl
      · exact decode_short_shape lang text hL
    · refine ⟨rec, 0x03 :: 0xFF :: (toBytesBE rec.length 2 ++ rec ++ [0xFE]),
        henc, ?_, ?_, ?_⟩
      · unfold encode_tlv
        rw [if_pos (show 0xFE < rec.length by omega),
            if_neg (show ¬ (0xFFFF < rec.length) by omega)]
        rfl
      · exact scan_tlv_ext rec (by omega) (by omega)
      · exact decode_short_shape lang text hL
  · -- extended record form
    set rec := 0xC1 :: 0x01 :: (toBytesBE (lang.length + text.length + 1) 4 ++
      0x54 :: lang.length :: (lang ++ text)) with hrec
    have henc : encode_text_record text lang = some rec :=
      encode_ext_eq text lang hL (by omega) (by omega)
    have hrlen : rec.length = lang.length + text.length + 8 := by
      rw [hrec]
      simp [toBytesBE_length]
      try omega
    refine ⟨rec, 0x03 :: 0xFF :: (toBytesBE rec.length 2 ++ rec ++ [0xFE]),
      henc, ?_, ?_, ?_⟩
    · unfold encode_tlv
      rw [if_pos (show 0xFE < rec.length by omega),
          if_neg (show ¬ (0xFFFF < rec.length) by omega)]
      rfl
    · exact scan_tlv_ext rec (by omega) (by omega)
    · exact decode_ext_shape lang text hL (by omega)

/-- Witness for C3 at text `"Hi"` and language `"en"`. -/
theorem c3_witness :
    ∃ rec tlv,
      encode_text_record [72, 105] [101, 110] = some rec ∧
      encode_tlv rec = some tlv ∧
      scan_containers tlv = .found rec ∧
      decode_text_record rec = .ok [72, 105] :=
  c3_round_trip [72, 105] [101, 110] (by decide) (by decide)

/-- Length of the extended-form record produced by `_encode_text_record`. -/
theorem encode_ext_rec_length (text lang : List Nat) :
    (0xC1 :: 0x01 :: (toBytesBE (lang.length + text.length + 1) 4 ++
      0x54 :: lang.length :: (lang ++ text))).length =
      lang.length + text.length + 8 := by
  simp [toBytesBE_length]
  try omega

/-- C3 counterexample: a payload of 65535 bytes (the encoder's own limit, as
the claim states it) is accepted by `_encode_text_record`, but wrapping the
resulting 65542-byte record in a container makes
`length.to_bytes(2, "big")` in `_encode_tlv` raise `OverflowError`, so the
round trip fails within the claimed limits. -/
theorem c3_counterexample :
    (encode_text_record (List.replicate 65532 65) [101, 110]).isSome = true ∧
    encode_tlv ((encode_text_record (List.replicate 65532 65) [101, 110]).getD [])
      = none := by
  have hlrep : (List.replicate 65532 (65:Nat)).length = 65532 :=
    List.length_replicate 65532 65
  have hl2 : ([101, 110] : List Nat).length = 2 := rfl
  have henc : encode_text_record (List.replicate 65532 65) [101, 110] =
      some (0xC1 :: 0x01 :: (toBytesBE ([101, 110].length +
          (List.replicate 65532 65).length + 1) 4 ++
        0x54 :: [101, 110].length :: ([101, 110] ++ List.replicate 65532 65))) :=
    encode_ext_eq (List.replicate 65532 65) [101, 110]
      (by rw [hl2]; norm_num)
      (by rw [hl2, hlrep]; try norm_num)
      (by rw [hl2, hlrep]; try norm_num)
  rw [henc, Option.getD_some]
  refine ⟨rfl, ?_⟩
  unfold encode_tlv
  rw [if_pos (by
        rw [encode_ext_rec_length (List.replicate 65532 65) [101, 110], hl2, hlrep]
        norm_num),
      if_pos (by
        rw [encode_ext_rec_length (List.replicate 65532 65) [101, 110], hl2, hlrep]
        norm_num)]

/-! ### Rounding lemmas (Python `round(x, 3)`) -/

theorem floor_le_rhe (x : ℝ) : ⌊x⌋ ≤ roundHalfEven x := by
  unfold roundHalfEven
  split_ifs <;> omega

theorem rhe_le_floor_add_one (x : ℝ) : roundHalfEven x ≤ ⌊x⌋ + 1 := by
  unfold roundHalfEven
  split_ifs <;> omega

theorem roundHalfEven_le (x : ℝ) : (roundHalfEven x : ℝ) ≤ x + 1 / 2 := by
  have hfl := Int.floor_le x
  have hlt := Int.lt_floor_add_one x
  unfold roundHalfEven
  split_ifs with h1 h2 h3 <;> push_cast <;> linarith

theorem roundHalfEven_mono {x y : ℝ} (h : x ≤ y) :
    roundHalfEven x ≤ roundHalfEven y := by
  have hf : ⌊x⌋ ≤ ⌊y⌋ := Int.floor_mono h
  rcases eq_or_lt_of_le hf with heq | hlt
  · unfold roundHalfEven
    rw [← heq]
    split_ifs <;> first | omega | (exfalso; linarith)
  · have b1 := rhe_le_floor_add_one x
    have b2 := floor_le_rhe y
    omega

theorem roundHalfEven_intCast (k : ℤ) : roundHalfEven (k : ℝ) = k := by
  simp [roundHalfEven, Int.floor_intCast]

theorem roundHalfEven_nonneg {x : ℝ} (h : 0 ≤ x) : 0 ≤ roundHalfEven x := by
  have h1 : (0:ℤ) ≤ ⌊x⌋ := Int.floor_nonneg.mpr h
  have h2 := floor_le_rhe x
  omega

theorem round3_mono {x y : ℝ} (h : x ≤ y) : round3 x ≤ round3 y := by
  unfold round3
  have h1 := roundHalfEven_mono (by linarith : x * 1000 ≤ y * 1000)
  have h2 : ((roundHalfEven (x * 1000) : ℤ) : ℝ) ≤
      ((roundHalfEven (y * 1000) : ℤ) : ℝ) := by exact_mod_cast h1
  linarith

theorem round3_le (x : ℝ) : round3 x ≤ x + 1 / 2000 := by
  unfold round3
  have := roundHalfEven_le (x * 1000)
  linarith

theorem round3_intDiv (k : ℤ) : round3 ((k : ℝ) / 1000) = (k : ℝ) / 1000 := by
  unfold round3
  rw [div_mul_cancel₀ _ (by norm_num : (1000:ℝ) ≠ 0), roundHalfEven_intCast]

theorem round3_nonneg {x : ℝ} (h : 0 ≤ x) : 0 ≤ round3 x := by
  unfold round3
  have h1 := roundHalfEven_nonneg (by linarith : (0:ℝ) ≤ x * 1000)
  exact div_nonneg (by exact_mod_cast h1) (by norm_num)

/-! ### Clamp lemmas -/

theorem clamp_lower (v hi : ℝ) : 0 ≤ clamp v 0 hi := le_max_left 0 _

theorem clamp_upper (v hi : ℝ) (h : 0 ≤ hi) : clamp v 0 hi ≤ hi :=
  max_le h (min_le_right v hi)

theorem clamp_idem (v hi : ℝ) : clamp (clamp v 0 hi) 0 hi = clamp v 0 hi := by
  rcases le_total 0 hi with h | h
  · unfold clamp
    rw [min_eq_left (max_le h (min_le_right v hi)),
        max_eq_right (le_max_left 0 _)]
  · have h1 : clamp v 0 hi = 0 := by
      unfold clamp
      rw [max_eq_left (le_trans (min_le_right v hi) h)]
    rw [h1]
    unfold clamp
    rw [min_eq_right h, max_eq_left h]

/-! ### Nonnegativity of the derived quantities -/

theorem length_from_radius_nonneg (r c w : ℝ) : 0 ≤ length_from_radius r c w := by
  simp only [length_from_radius]
  split_ifs with h
  · exact le_rfl
  · push_neg at h
    have hA := FILAMENT_AREA_MM2_pos
    have hpi := Real.pi_pos
    apply div_nonneg _ (by norm_num : (0:ℝ) ≤ 1000)
    apply div_nonneg _ hA.le
    exact mul_nonneg (mul_nonneg hpi.le h.2.le) (le_max_right _ _)

theorem derivedMetersFull_nonneg (d : TagData) (mr cr w : ℝ) :
    0 ≤ derivedMetersFull d mr cr w := by
  unfold derivedMetersFull
  cases d.meters_full with
  | none => exact length_from_radius_nonneg mr cr w
  | some v =>
    dsimp only
    by_cases hv : v ≤ 0
    · rw [if_pos hv]
      exact length_from_radius_nonneg mr cr w
    · rw [if_neg hv]
      linarith [not_le.mp hv]

theorem grams_per_meter_nonneg (d : TagData) :
    0 ≤ grams_per_meter_from_data d := by
  simp only [grams_per_meter_from_data]
  have hA := FILAMENT_AREA_MM2_pos
  split_ifs with h
  · exact div_nonneg h.2.le h.1.le
  · positivity

/-! ### C4: bounds on the remaining quantities -/

theorem normalise_bounds (d : TagData) (s : SpoolState)
    (h : normalise_tag_data d = some s) :
    0 ≤ metersRemaining s ∧ metersRemaining s ≤ metersFullOf s ∧
    (0 ≤ gramsFullOf s → 0 ≤ gramsRemaining s ∧ gramsRemaining s ≤ gramsFullOf s) ∧
    0 ≤ s.g_per_m := by
  obtain ⟨dver, dfil, dmin, dmax, dw, dgf, dgr, dmf, dmr⟩ := d
  cases dmin with
  | none => simp [normalise_tag_data] at h
  | some min_d =>
  cases dmax with
  | none => simp [normalise_tag_data] at h
  | some max_d =>
  cases dw with
  | none => simp [normalise_tag_data] at h
  | some width =>
  cases dgr with
  | none => simp [normalise_tag_data] at h
  | some g =>
  cases dmr with
  | none => simp [normalise_tag_data] at h
  | some m =>
  simp only [normalise_tag_data, Option.some.injEq] at h
  subst h
  simp only [metersRemaining, metersFullOf, gramsRemaining, gramsFullOf,
    Option.getD_some]
  exact ⟨clamp_lower _ _,
    clamp_upper _ _ (derivedMetersFull_nonneg _ _ _ _),
    fun hgf => ⟨clamp_lower _ _, clamp_upper _ _ hgf⟩,
    grams_per_meter_nonneg _⟩

theorem consume_preserves_remInv (gf mf : ℝ) (s : SpoolState)
    (h : remInv gf mf s) : remInv gf mf (consume_filament_rotation s).1 := by
  obtain ⟨hg0, hgB, hm0, hmB, hgf, hmf, hgpm⟩ := h
  by_cases hstep : meters_per_rotation s ≤ 0
  · have heq : consume_filament_rotation s = (s, false) := by
      simp only [consume_filament_rotation]
      rw [if_pos hstep]
    rw [heq]
    exact ⟨hg0, hgB, hm0, hmB, hgf, hmf, hgpm⟩
  · have hpos : 0 < meters_per_rotation s := not_le.mp hstep
    have heq : (consume_filament_rotation s).1 = { s with data := { s.data with
        meters_rem := some (round3 (max (max
          (s.data.meters_rem.getD 0 - meters_per_rotation s) 0) 0)),
        grams_rem := some (round3 (max (max
          (s.data.grams_rem.getD 0 - meters_per_rotation s * s.g_per_m) 0) 0)) } } := by
      simp only [consume_filament_rotation]
      rw [if_neg hstep]
    rw [heq]
    have hmax2 : ∀ a : ℝ, max (max a 0) 0 = max a 0 := fun a => by
      rw [max_assoc, max_self]
    simp only [remInv, gramsRemaining, metersRemaining, gramsFullOf, metersFullOf,
      Option.getD_some, hmax2] at *
    have hgs : 0 ≤ meters_per_rotation s * s.g_per_m := mul_nonneg hpos.le hgpm
    have hyg0 : 0 ≤ max (s.data.grams_rem.getD 0 - meters_per_rotation s * s.g_per_m) 0 :=
      le_max_right _ _
    have hygle : max (s.data.grams_rem.getD 0 - meters_per_rotation s * s.g_per_m) 0 ≤
        s.data.grams_rem.getD 0 := max_le (by linarith) hg0
    have hym0 : 0 ≤ max (s.data.meters_rem.getD 0 - meters_per_rotation s) 0 :=
      le_max_right _ _
    have hymle : max (s.data.meters_rem.getD 0 - meters_per_rotation s) 0 ≤
        s.data.meters_rem.getD 0 := max_le (by linarith) hm0
    refine ⟨round3_nonneg hyg0, Or.inr ⟨?_, _, rfl⟩,
      round3_nonneg hym0, Or.inr ⟨?_, _, rfl⟩, hgf, hmf, hgpm⟩
    · rcases hgB with h1 | ⟨h2a, k, h2b⟩
      · have := round3_le
          (max (s.data.grams_rem.getD 0 - meters_per_rotation s * s.g_per_m) 0)
        linarith
      · have hmono := round3_mono hygle
        rw [h2b, round3_intDiv] at hmono
        rw [← h2b] at hmono
        linarith
    · rcases hmB with h1 | ⟨h2a, k, h2b⟩
      · have := round3_le (max (s.data.meters_rem.getD 0 - meters_per_rotation s) 0)
        linarith
      · have hmono := round3_mono hymle
        rw [h2b, round3_intDiv] at hmono
        rw [← h2b] at hmono
        linarith

/-- C4 (amended): after a successful `normalise_tag_data`, `meters_remaining`
lies in `[0, meters_full]` unconditionally, and `grams_remaining` lies in
`[0, grams_full]` provided the derived `grams_full` is nonnegative (the code
can derive a negative `grams_full` from a negative `grams_rem` input, making
the claimed interval empty — see the counterexample); after every subsequent
consumption step both remaining quantities stay nonnegative and exceed their
full quantities by at most `1/2000` (3-decimal rounding can round up by half
a thousandth). -/
theorem c4_remaining_bounds :
    (∀ d s, normalise_tag_data d = some s →
      0 ≤ metersRemaining s ∧ metersRemaining s ≤ metersFullOf s ∧
      (0 ≤ gramsFullOf s → 0 ≤ gramsRemaining s ∧ gramsRemaining s ≤ gramsFullOf s)) ∧
    (∀ d s, normalise_tag_data d = some s → 0 ≤ gramsFullOf s → ∀ n,
      0 ≤ gramsRemaining (consumeN n s) ∧
      gramsRemaining (consumeN n s) ≤ gramsFullOf s + 1 / 2000 ∧
      0 ≤ metersRemaining (consumeN n s) ∧
      metersRemaining (consumeN n s) ≤ metersFullOf s + 1 / 2000) := by
  have hiter : ∀ (gf mf : ℝ) (n : Nat) (s : SpoolState),
      remInv gf mf s → remInv gf mf (consumeN n s) := by
    intro gf mf n
    induction n with
    | zero => intro s h; exact h
    | succ k ih =>
      intro s h
      exact ih _ (consume_preserves_remInv gf mf s h)
  constructor
  · intro d s h
    have hb := normalise_bounds d s h
    exact ⟨hb.1, hb.2.1, hb.2.2.1⟩
  · intro d s h hgf n
    have hb := normalise_bounds d s h
    have hInv : remInv (gramsFullOf s) (metersFullOf s) s :=
      ⟨(hb.2.2.1 hgf).1, Or.inl (hb.2.2.1 hgf).2, hb.1, Or.inl hb.2.1, rfl, rfl,
        hb.2.2.2⟩
    obtain ⟨a, b, c, e, _, _, _⟩ := hiter _ _ n s hInv
    refine ⟨a, ?_, c, ?_⟩
    · rcases b with h1 | h2
      · linarith
      · exact h2.1
    · rcases e with h1 | h2
      · linarith
      · exact h2.1

theorem normalise_dNeg : normalise_tag_data dNeg = some sNeg := by
  simp only [normalise_tag_data, dNeg, derivedMetersFull, derivedGramsFull]
  norm_num [clamp, grams_per_meter_from_data, length_from_radius, sNeg]

/-- C4 counterexample: `normalise_tag_data` accepts a document whose
`grams_rem` is `-1` with no `grams_full`, derives `grams_full = -1`, and
clamps `grams_rem` to `0`; the resulting state has
`grams_remaining > grams_full`, so the claimed interval `[0, grams_full]`
does not contain it. -/
theorem c4_counterexample :
    normalise_tag_data dNeg = some sNeg ∧
    gramsFullOf sNeg < gramsRemaining sNeg := by
  refine ⟨normalise_dNeg, ?_⟩
  norm_num [gramsFullOf, gramsRemaining, sNeg]

/-- Witness for C4 at the concrete document `dOk`. -/
theorem c4_witness :
    (0 ≤ metersRemaining sOk ∧ metersRemaining sOk ≤ metersFullOf sOk) ∧
    0 ≤ gramsRemaining (consumeN 1 sOk) ∧
    gramsRemaining (consumeN 1 sOk) ≤ gramsFullOf sOk + 1 / 2000 := by
  constructor
  · have h := c4_remaining_bounds.1 dOk sOk normalise_dOk
    exact ⟨h.1, h.2.1⟩
  · have h := c4_remaining_bounds.2 dOk sOk normalise_dOk
      (by norm_num [gramsFullOf, sOk]) 1
    exact ⟨h.1, h.2.1⟩

/-! ### C5: idempotence of `normalise_tag_data` -/

/-- Re-deriving `meters_full` from a dictionary that already stores the
derived value yields the same value (the recomputation is deterministic in
the unchanged geometry). -/
theorem derivedMetersFull_stable (dorig dnew : TagData) (mr cr w : ℝ)
    (hnew : dnew.meters_full = some (derivedMetersFull dorig mr cr w)) :
    derivedMetersFull dnew mr cr w = derivedMetersFull dorig mr cr w := by
  rcases horig : dorig.meters_full with _ | v
  · have hM : derivedMetersFull dorig mr cr w = length_from_radius mr cr w := by
      unfold derivedMetersFull
      rw [horig]
    rw [hM] at hnew ⊢
    unfold derivedMetersFull
    rw [hnew]
    dsimp only
    split_ifs <;> rfl
  · by_cases hv : v ≤ 0
    · have hM : derivedMetersFull dorig mr cr w = length_from_radius mr cr w := by
        unfold derivedMetersFull
        rw [horig]
        dsimp only
        rw [if_pos hv]
      rw [hM] at hnew ⊢
      unfold derivedMetersFull
      rw [hnew]
      dsimp only
      split_ifs <;> rfl
    · have hM : derivedMetersFull dorig mr cr w = v := by
        unfold derivedMetersFull
        rw [horig]
        dsimp only
        rw [if_neg hv]
      rw [hM] at hnew ⊢
      unfold derivedMetersFull
      rw [hnew]
      dsimp only
      rw [if_neg hv]

/-- Re-deriving `grams_full` from the already-normalised dictionary yields the
same value, provided the input `grams_rem` was nonnegative or a positive
`grams_full` was supplied.  (Without that proviso the value changes — see the
C5 counterexample.) -/
theorem derivedGramsFull_stable (dorig dnew : TagData) (g : ℝ)
    (hnew : dnew.grams_full = some (derivedGramsFull dorig g))
    (hside : 0 ≤ g ∨ ∃ v, dorig.grams_full = some v ∧ 0 < v) :
    derivedGramsFull dnew (clamp g 0 (derivedGramsFull dorig g)) =
      derivedGramsFull dorig g := by
  rcases horig : dorig.grams_full with _ | v
  · have hG : derivedGramsFull dorig g = g := by
      unfold derivedGramsFull
      rw [horig]
    have hg : 0 ≤ g := by
      rcases hside with hg | ⟨v, hv, _⟩
      · exact hg
      · rw [horig] at hv
        exact absurd hv (by simp)
    rw [hG] at hnew ⊢
    unfold derivedGramsFull
    rw [hnew]
    dsimp only
    by_cases hgle : g ≤ 0
    · rw [if_pos hgle]
      have hg0 : g = 0 := le_antisymm hgle hg
      subst hg0
      simp [clamp]
    · rw [if_neg hgle]
  · by_cases hv : v ≤ 0
    · have hG : derivedGramsFull dorig g = g := by
        unfold derivedGramsFull
        rw [horig]
        dsimp only
        rw [if_pos hv]
      have hg : 0 ≤ g := by
        rcases hside with hg | ⟨v2, hv2, hv2pos⟩
        · exact hg
        · rw [horig] at hv2
          have hvv : v = v2 := by injection hv2
          exfalso
          rw [hvv] at hv
          linarith
      rw [hG] at hnew ⊢
      unfold derivedGramsFull
      rw [hnew]
      dsimp only
      by_cases hgle : g ≤ 0
      · rw [if_pos hgle]
        have hg0 : g = 0 := le_antisymm hgle hg
        subst hg0
        simp [clamp]
      · rw [if_neg hgle]
    · have hG : derivedGramsFull dorig g = v := by
        unfold derivedGramsFull
        rw [horig]
        dsimp only
        rw [if_neg hv]
      rw [hG] at hnew ⊢
      unfold derivedGramsFull
      rw [hnew]
      dsimp only
      rw [if_neg hv]

/-- C5 (amended): re-normalising a normalised document yields the identical
`DerivedState` — same `core_radius`, `max_radius`, `grams_per_meter` and
identical document field values — provided the original `grams_rem` input was
nonnegative or a positive `grams_full` was supplied.  (When the first pass
derived `grams_full` from a strictly negative `grams_rem`, the second pass
replaces `grams_full` by `0` — see the counterexample; from the second run on
the result is again stable.) -/
theorem c5_normalise_idempotent (d : TagData) (s : SpoolState)
    (h : normalise_tag_data d = some s)
    (hside : 0 ≤ d.grams_rem.getD 0 ∨ ∃ v, d.grams_full = some v ∧ 0 < v) :
    normalise_tag_data s.data = some s := by
  obtain ⟨dver, dfil, dmin, dmax, dw, dgf, dgr, dmf, dmr⟩ := d
  cases dmin with
  | none => simp [normalise_tag_data] at h
  | some min_d =>
  cases dmax with
  | none => simp [normalise_tag_data] at h
  | some max_d =>
  cases dw with
  | none => simp [normalise_tag_data] at h
  | some width =>
  cases dgr with
  | none => simp [normalise_tag_data] at h
  | some g =>
  cases dmr with
  | none => simp [normalise_tag_data] at h
  | some m =>
  simp only [Option.getD_some] at hside
  simp only [normalise_tag_data, Option.some.injEq] at h
  subst h
  simp only [normalise_tag_data, Option.getD_some, Option.some.injEq]
  have hstM := derivedMetersFull_stable (⟨dver, dfil, some min_d, some max_d, some width, dgf, some g, dmf, some m⟩ : TagData)
      (⟨some (dver.getD 1), some (dfil.getD FILAMENT_DIAMETER_MM), some min_d, some max_d, some width, some (derivedGramsFull (⟨dver, dfil, some min_d, some max_d, some width, dgf, some g, dmf, some m⟩ : TagData) g), some (clamp g 0 (derivedGramsFull (⟨dver, dfil, some min_d, some max_d, some width, dgf, some g, dmf, some m⟩ : TagData) g)), some (derivedMetersFull (⟨dver, dfil, some min_d, some max_d, some width, dgf, some g, dmf, some m⟩ : TagData) (max_d / 2) (min_d / 2) width), some (clamp m 0 (derivedMetersFull (⟨dver, dfil, some min_d, some max_d, some width, dgf, some g, dmf, some m⟩ : TagData) (max_d / 2) (min_d / 2) width))⟩ : TagData)
      (max_d / 2) (min_d / 2) width rfl
  have hstG := derivedGramsFull_stable (⟨dver, dfil, some min_d, some max_d, some width, dgf, some g, dmf, some m⟩ : TagData)
      (⟨some (dver.getD 1), some (dfil.getD FILAMENT_DIAMETER_MM), some min_d, some max_d, some width, some (derivedGramsFull (⟨dver, dfil, some min_d, some max_d, some width, dgf, some g, dmf, some m⟩ : TagData) g), some (clamp g 0 (derivedGramsFull (⟨dver, dfil, some min_d, some max_d, some width, dgf, some g, dmf, some m⟩ : TagData) g)), some (derivedMetersFull (⟨dver, dfil, some min_d, some max_d, some width, dgf, some g, dmf, some m⟩ : TagData) (max_d / 2) (min_d / 2) width), some (clamp m 0 (derivedMetersFull (⟨dver, dfil, some min_d, some max_d, some width, dgf, some g, dmf, some m⟩ : TagData) (max_d / 2) (min_d / 2) width))⟩ : TagData)
      g rfl hside
  rw [hstM, hstG, clamp_idem, clamp_idem]

/-- Witness for C5 at the concrete document `dOk`. -/
theorem c5_witness : normalise_tag_data sOk.data = some sOk :=
  c5_normalise_idempotent dOk sOk normalise_dOk (Or.inl (by norm_num [dOk]))

theorem normalise_sNegData : normalise_tag_data sNeg.data = some sNeg2 := by
  simp only [normalise_tag_data, sNeg, derivedMetersFull, derivedGramsFull]
  norm_num [clamp, grams_per_meter_from_data, length_from_radius, sNeg2]

/-- C5 counterexample: normalising `dNeg` (negative `grams_rem`, no
`grams_full`) derives `grams_full = -1`; normalising the resulting document
again succeeds but changes `grams_full` to `0`, so the document field values
are not identical. -/
theorem c5_counterexample :
    normalise_tag_data dNeg = some sNeg ∧
    normalise_tag_data sNeg.data = some sNeg2 ∧
    sNeg2.data.grams_full ≠ sNeg.data.grams_full := by
  refine ⟨normalise_dNeg, normalise_sNegData, ?_⟩
  norm_num [sNeg, sNeg2]

end FilamentMonitor
